import Mathlib

/-!
Verification of the libnetwork datastore Store facade
(`libnetwork/datastore/datastore.go`) against its specification.

The facade (`PutObjectAtomic`, `GetObject`, `List`, `Map`,
`DeleteObjectAtomic`, `Key`, `ensureParent`, `newClient`, `New`, `Scope`)
is embedded directly from the source.  The collaborators whose code is not
part of the source tree — the Cache (`cache.go`), the kvstore backend
contract and the boltdb provider — are modelled from the
specification's description of their interfaces (spec sections 4.2 and 6)
and marked `Modelled from the spec:` below.

Go's in-place mutation is embedded by explicit state passing: each
operation returns its error outcome together with the resulting store
state and (where the source mutates the passed object via `SetIndex` /
`SetValue`) the resulting object.
-/

namespace Datastore

/-- Opaque serialized object content (Go `[]byte`). -/
abbrev Bytes := List Nat

/-- Error values crossing the facade boundary.  `keyModified` and
`keyNotFound` are `ErrKeyModified` / `ErrKeyNotFound` (shared with the
backing store, as in the source where they alias `store.ErrKeyModified` /
`store.ErrKeyNotFound`); `keyExists` is the backend's
`store.ErrKeyExists`; `badRequest` models `types.BadRequestErrorf`, and
`other` models errors built with `fmt.Errorf`. -/
inductive DSErr where
  | keyModified
  | keyNotFound
  | keyExists
  | badRequest (msg : String)
  | other (msg : String)
  deriving DecidableEq, Repr

/-- `store.KVPair`: a stored key with its value and backend version. -/
structure KVPair where
  key : String
  value : Bytes
  lastIndex : Nat
  deriving DecidableEq, Repr

/-- The `KVObject` contract, embedded as a record: `Key()`, `KeyPrefix()`
(field `parentKey`), `Value()` (`none` models a nil byte slice),
`Index()`, `Exists()`, `DataScope()`, `Skip()`.  The field `isCtor`
records whether the concrete type also implements `KVConstructor`
(a runtime type assertion in the source). -/
structure KVObject where
  key : List String
  parentKey : List String
  value : Option Bytes
  index : Nat
  exists_ : Bool
  dataScope : String
  skip : Bool
  isCtor : Bool
  deriving DecidableEq, Repr

/-- `SetIndex`: stamps the version.  Per the source's doc comment on
`Exists` ("When SetIndex() is called, the object has been stored"),
stamping also marks the object as existing. -/
def KVObject.setIndex (o : KVObject) (v : Nat) : KVObject :=
  { o with index := v, exists_ := true }

/-- `SetValue`: hydrates the object's content.  Domain objects may fail
to deserialize; the generic model object stores the bytes verbatim. -/
def KVObject.setValue (o : KVObject) (b : Bytes) : KVObject :=
  { o with value := some b }

/-- `KVConstructor.New()`: a fresh zero-value instance of the same
concrete type (so it keeps `isCtor`; every other field is zero). -/
def KVObject.ctorNew (o : KVObject) : KVObject :=
  { key := [], parentKey := [], value := none, index := 0, exists_ := false,
    dataScope := "", skip := false, isCtor := o.isCtor }

/-- The fixed root chain prepended to every key. -/
def rootChain : List String := ["docker", "network", "v1.0"]

/-- `Key(key...)`: renders the root chain followed by the supplied
segments, each segment terminated by "/". -/
def Key (key : List String) : String :=
  (rootChain ++ key).foldl (fun b part => b ++ part ++ "/") ""

/-- `strings.Trim(key, "/")`: drops leading and trailing slash runs. -/
def trimSlashes (s : String) : String :=
  String.mk (((s.toList.dropWhile (fun c => c == '/')).reverse.dropWhile
    (fun c => c == '/')).reverse)

/-- Modelled from the spec: the BackingStore capability (spec section 6);
the concrete engine (`internal/kvstore`, boltdb) is not in the source
tree.  State is an association of stored keys to (value, version) plus a
monotonically increasing version counter from which `AtomicPut`/`Put`
draw backend-assigned versions. -/
structure BackingStore where
  pairs : List (String × Bytes × Nat)
  counter : Nat
  deriving DecidableEq, Repr

/-- Lookup of a stored key. -/
def bFind (s : BackingStore) (k : String) : Option (Bytes × Nat) :=
  (s.pairs.find? (fun p => p.1 == k)).map (·.2)

/-- Modelled from the spec: BackingStore `Exists(key)`. -/
def bExists (s : BackingStore) (k : String) : Bool :=
  (bFind s k).isSome

/-- Modelled from the spec: BackingStore `Put(key, value)` — stores the
entry unconditionally under a fresh version. -/
def bPut (s : BackingStore) (k : String) (v : Bytes) : BackingStore :=
  let ni := s.counter + 1
  { pairs := (k, v, ni) :: s.pairs.filter (fun q => !(q.1 == k)), counter := ni }

/-- Modelled from the spec: BackingStore `Get(key)` — distinguished
not-found condition on absent keys. -/
def bGet (s : BackingStore) (k : String) : Except DSErr KVPair :=
  match bFind s k with
  | none => .error .keyNotFound
  | some (v, i) => .ok { key := k, value := v, lastIndex := i }

/-- Modelled from the spec: BackingStore `List(prefix)` — every stored
entry whose key extends the given prefix; not-found when there is none
(which is why the facade's `ensureParent` writes a placeholder first). -/
def bList (s : BackingStore) (pfx : String) : Except DSErr (List KVPair) :=
  let l := (s.pairs.filter (fun p => pfx.isPrefixOf p.1)).map
    (fun p => ({ key := p.1, value := p.2.1, lastIndex := p.2.2 } : KVPair))
  if l.isEmpty then .error .keyNotFound else .ok l

/-- Modelled from the spec: BackingStore `AtomicPut(key, value, previous)`
where `previous` is nil for "must not already exist" and
`(key, expectedVersion)` otherwise; signals the distinguished conflict
conditions (`keyExists` when a supposedly fresh key is present,
`keyModified` when the expected version is stale, `keyNotFound` when a
version is claimed for an absent key) and otherwise assigns the next
backend version. -/
def bAtomicPut (s : BackingStore) (k : String) (v : Bytes)
    (previous : Option KVPair) : Except DSErr (KVPair × BackingStore) :=
  match bFind s k, previous with
  | some _, none => .error .keyExists
  | none, some _ => .error .keyNotFound
  | some (_, i0), some p =>
    if i0 ≠ p.lastIndex then .error .keyModified
    else
      let ni := s.counter + 1
      .ok ({ key := k, value := v, lastIndex := ni },
        { pairs := (k, v, ni) :: s.pairs.filter (fun q => !(q.1 == k)),
          counter := ni })
  | none, none =>
    let ni := s.counter + 1
    .ok ({ key := k, value := v, lastIndex := ni },
      { pairs := (k, v, ni) :: s.pairs.filter (fun q => !(q.1 == k)),
        counter := ni })

/-- Modelled from the spec: BackingStore `AtomicDelete(key, previous)` —
conflict on stale expected version, not-found on absent key. -/
def bAtomicDelete (s : BackingStore) (k : String) (previous : KVPair) :
    Except DSErr BackingStore :=
  match bFind s k with
  | none => .error .keyNotFound
  | some (_, i0) =>
    if i0 ≠ previous.lastIndex then .error .keyModified
    else .ok { s with pairs := s.pairs.filter (fun q => !(q.1 == k)) }

/-- A Cache mirror entry: serialized value and version. -/
structure CacheEntry where
  value : Bytes
  index : Nat
  deriving DecidableEq, Repr

/-- Modelled from the spec: the Cache (spec section 4.2; `cache.go` is not
in the source tree) — a map from full key to mirror entry, partitioned by
the key's immediate parent (one sub-mapping per parent, as the spec
suggests). -/
structure Cache where
  kmm : List (String × List (String × CacheEntry))
  deriving DecidableEq, Repr

/-- Association-list lookup. -/
def assocFind {α : Type} (l : List (String × α)) (k : String) : Option α :=
  (l.find? (fun p => p.1 == k)).map (·.2)

/-- Association-list insert-or-replace. -/
def assocSet {α : Type} (l : List (String × α)) (k : String) (v : α) :
    List (String × α) :=
  (k, v) :: l.filter (fun p => !(p.1 == k))

/-- Association-list removal. -/
def assocErase {α : Type} (l : List (String × α)) (k : String) :
    List (String × α) :=
  l.filter (fun p => !(p.1 == k))

/-- Cache lookup by parent key and full key. -/
def Cache.lookup (c : Cache) (kp k : String) : Option CacheEntry :=
  (assocFind c.kmm kp).bind (fun m => assocFind m k)

/-- Store an entry under its parent's sub-mapping. -/
def Cache.addEntry (c : Cache) (kp k : String) (e : CacheEntry) : Cache :=
  let m := (assocFind c.kmm kp).getD []
  { kmm := assocSet c.kmm kp (assocSet m k e) }

/-- Modelled from the spec: Cache `add(obj, skipPersist)` (spec 4.2).
With `skipPersist` false it mirrors an already-committed backend write,
storing value and version verbatim.  With `skipPersist` true the Cache is
the arbiter: it compares the caller's claimed previous version
(`obj.index`, zero when never persisted) against the currently cached
version for the key (zero when absent), fails with `ErrKeyModified` on
mismatch, and otherwise assigns `currentVersion + 1` (so 1 on first
insert) and stamps it back onto the object. -/
def cacheAdd (c : Cache) (o : KVObject) (skipPersist : Bool) :
    Except DSErr (Cache × KVObject) :=
  let kp := Key o.parentKey
  let k := Key o.key
  if skipPersist then
    let current := ((c.lookup kp k).map (·.index)).getD 0
    if o.index ≠ current then .error .keyModified
    else
      let ni := current + 1
      .ok (c.addEntry kp k { value := o.value.getD [], index := ni },
        o.setIndex ni)
  else
    .ok (c.addEntry kp k { value := o.value.getD [], index := o.index }, o)

/-- Modelled from the spec: Cache `get(obj)` — hit hydrates via
`SetValue` + `SetIndex` from the mirror, miss is not-found. -/
def cacheGet (c : Cache) (o : KVObject) : Except DSErr KVObject :=
  match c.lookup (Key o.parentKey) (Key o.key) with
  | none => .error .keyNotFound
  | some e => .ok ((o.setValue e.value).setIndex e.index)

/-- Modelled from the spec: Cache `list(exemplar)` — materialized copies
of every entry under the exemplar's parent key, each built via the
exemplar's `KVConstructor.New()` plus hydration; a hard error when the
exemplar lacks the `KVConstructor` capability. -/
def cacheList (c : Cache) (o : KVObject) : Except DSErr (List KVObject) :=
  if !o.isCtor then
    .error (.other
      "error listing objects from cache: object does not implement KVConstructor interface")
  else
    let m := ((assocFind c.kmm (Key o.parentKey)).getD [])
    .ok (m.map (fun p => (o.ctorNew.setValue p.2.value).setIndex p.2.index))

/-- Modelled from the spec: Cache `del(obj, skipPersist)` — removes the
entry for the object's key; deleting an absent key is a no-op, not an
error. -/
def cacheDel (c : Cache) (o : KVObject) (_skipPersist : Bool) : Cache :=
  match assocFind c.kmm (Key o.parentKey) with
  | none => c
  | some m =>
    if (assocFind m (Key o.key)).isSome then
      { kmm := assocSet c.kmm (Key o.parentKey) (assocErase m (Key o.key)) }
    else c

/-- The Store facade state: configured scope, backing store, optional
cache. -/
structure DataStore where
  scope : String
  store : BackingStore
  cache : Option Cache
  deriving DecidableEq, Repr

/-- `Scope()`. -/
def Scope (ds : DataStore) : String := ds.scope

/-- `PutObjectAtomic(kvObject)` from the source: nil checks, skip branch
(straight to the cache), previous-version token from `Exists()`/`Index()`,
backend `AtomicPut`, mapping of the backend's `ErrKeyExists` to
`ErrKeyModified`, `SetIndex` stamping on success, then the shared
`add_cache` step with the object's skip flag.  Returns (error outcome,
resulting store state, resulting object). -/
def putObjectAtomic (ds : DataStore) (objIn : Option KVObject) :
    Except DSErr Unit × DataStore × Option KVObject :=
  match objIn with
  | none => (.error (.badRequest "invalid KV Object : nil"), ds, none)
  | some kvObject =>
    match kvObject.value with
    | none =>
      (.error (.badRequest "invalid KV Object with a nil Value"), ds,
        some kvObject)
    | some kvObjValue =>
      if kvObject.skip then
        match ds.cache with
        | none => (.ok (), ds, some kvObject)
        | some c =>
          match cacheAdd c kvObject kvObject.skip with
          | .error e => (.error e, ds, some kvObject)
          | .ok (c', o') => (.ok (), { ds with cache := some c' }, some o')
      else
        let previous : Option KVPair :=
          if kvObject.exists_ then
            some { key := Key kvObject.key, value := [],
                   lastIndex := kvObject.index }
          else none
        match bAtomicPut ds.store (Key kvObject.key) kvObjValue previous with
        | .error e =>
          (.error (if e = .keyExists then .keyModified else e), ds,
            some kvObject)
        | .ok (pair, st') =>
          let o1 := kvObject.setIndex pair.lastIndex
          match ds.cache with
          | none => (.ok (), { ds with store := st' }, some o1)
          | some c =>
            match cacheAdd c o1 o1.skip with
            | .error e => (.error e, { ds with store := st' }, some o1)
            | .ok (c', o') =>
              (.ok (), { ds with store := st', cache := some c' }, some o')

/-- `GetObject(key, o)` from the source: delegates entirely to the cache
when one is configured, otherwise backend `Get` plus
`SetValue`/`SetIndex` hydration. -/
def getObject (ds : DataStore) (key : String) (o : KVObject) :
    Except DSErr KVObject :=
  match ds.cache with
  | some c => cacheGet c o
  | none =>
    match bGet ds.store key with
    | .error e => .error e
    | .ok kvPair => .ok ((o.setValue kvPair.value).setIndex kvPair.lastIndex)

/-- `ensureParent(parent)` from the source: create the parent key with an
empty value when it does not yet exist. -/
def ensureParent (ds : DataStore) (parent : String) : DataStore :=
  if bExists ds.store parent then ds
  else { ds with store := bPut ds.store parent [] }

/-- `iterateKVPairsFromStore(key, kvObject, callback)` from the source:
bails out when the exemplar does not implement `KVConstructor`, ensures
the parent key, lists the backend, skips entries with empty values, and
materializes each remaining entry via `New()` + `SetValue` + `SetIndex`.
The callback invocations are returned as an association list in order. -/
def iterateKVPairsFromStore (ds : DataStore) (key : String)
    (kvObject : KVObject) :
    Except DSErr (List (String × KVObject)) × DataStore :=
  if !kvObject.isCtor then
    (.error (.other
      "error listing objects, object does not implement KVConstructor interface"), ds)
  else
    let ds1 := ensureParent ds key
    match bList ds1.store key with
    | .error e => (.error e, ds1)
    | .ok kvList =>
      (.ok ((kvList.filter (fun p => !p.value.isEmpty)).map
        (fun p => (p.key, (kvObject.ctorNew.setValue p.value).setIndex
          p.lastIndex))), ds1)

/-- `List(key, kvObject)` from the source: delegates to the cache when
configured, otherwise collects the iterated objects. -/
def listObjects (ds : DataStore) (key : String) (kvObject : KVObject) :
    Except DSErr (List KVObject) × DataStore :=
  match ds.cache with
  | some c => (cacheList c kvObject, ds)
  | none =>
    match iterateKVPairsFromStore ds key kvObject with
    | (.error e, ds') => (.error e, ds')
    | (.ok l, ds') => (.ok (l.map (·.2)), ds')

/-- `Map(key, kvObject)` from the source: always iterates the backend
(never consults the cache), associating each object to its stored key
trimmed of leading and trailing "/". -/
def mapObjects (ds : DataStore) (key : String) (kvObject : KVObject) :
    Except DSErr (List (String × KVObject)) × DataStore :=
  match iterateKVPairsFromStore ds key kvObject with
  | (.error e, ds') => (.error e, ds')
  | (.ok l, ds') => (.ok (l.map (fun p => (trimSlashes p.1, p.2))), ds')

/-- `DeleteObjectAtomic(kvObject)` from the source: nil check,
previous-version token from the object's key/version, skip branch
straight to the cache, backend `AtomicDelete` with `ErrKeyExists` mapped
to `ErrKeyModified`, then cache cleanup only after a successful backend
delete. -/
def deleteObjectAtomic (ds : DataStore) (objIn : Option KVObject) :
    Except DSErr Unit × DataStore :=
  match objIn with
  | none => (.error (.badRequest "invalid KV Object : nil"), ds)
  | some kvObject =>
    let previous : KVPair :=
      { key := Key kvObject.key, value := [], lastIndex := kvObject.index }
    if kvObject.skip then
      match ds.cache with
      | none => (.ok (), ds)
      | some c =>
        (.ok (), { ds with cache := some (cacheDel c kvObject kvObject.skip) })
    else
      match bAtomicDelete ds.store (Key kvObject.key) previous with
      | .error e => (.error (if e = .keyExists then .keyModified else e), ds)
      | .ok st' =>
        match ds.cache with
        | none => (.ok (), { ds with store := st' })
        | some c =>
          (.ok (),
            { ds with store := st',
                      cache := some (cacheDel c kvObject kvObject.skip) })

/-- `scope.Local` (scope package, value "local"). -/
def scopeLocal : String := "local"

/-- `string(store.BOLTDB)`: the embedded provider's name. -/
def BOLTDB : String := "boltdb"

/-- `store.Config`: bucket name and connection timeout (in minutes). -/
structure StoreConfig where
  bucket : String
  connectionTimeoutMinutes : Nat
  deriving DecidableEq, Repr

/-- `ScopeClientCfg`. -/
structure ScopeClientCfg where
  provider : String
  address : String
  config : Option StoreConfig
  deriving DecidableEq, Repr

/-- `ScopeCfg`. -/
structure ScopeCfg where
  client : ScopeClientCfg
  deriving DecidableEq, Repr

/-- The default datastore path root. -/
def defaultPfx : String := "/var/lib/docker/network/files"

/-- `DefaultScope(dataDir)` from the source. -/
def DefaultScope (dataDir : String) : ScopeCfg :=
  let dbpath := if dataDir = "" then defaultPfx ++ "/local-kv.db"
                else dataDir ++ "/network/files/local-kv.db"
  { client := { provider := BOLTDB, address := dbpath,
                config := some { bucket := "libnetwork",
                                 connectionTimeoutMinutes := 1 } } }

/-- `newCache(ds)`: an empty cache (the mirror starts unpopulated). -/
def emptyCache : Cache := { kmm := [] }

/-- `newClient(kv, addr, config)` from the source: rejects every provider
other than boltdb, defaults a nil config, builds the boltdb store (the
constructor `boltdb.New` is not in the source tree and is passed as a
parameter over its interface), and on success returns a local-scope store
with a cache installed. -/
def newClient
    (boltNew : List String → StoreConfig → Except DSErr BackingStore)
    (kv : String) (addr : String) (config : Option StoreConfig) :
    Except DSErr DataStore :=
  if kv ≠ BOLTDB then .error (.other "unsupported KV store")
  else
    let config := config.getD { bucket := "", connectionTimeoutMinutes := 0 }
    match boltNew (addr.splitOn ",") config with
    | .error e => .error e
    | .ok s => .ok { scope := scopeLocal, store := s, cache := some emptyCache }

/-- `New(cfg)` from the source: substitutes the default local
configuration when provider or address is empty, then `newClient`. -/
def New (boltNew : List String → StoreConfig → Except DSErr BackingStore)
    (cfg : ScopeCfg) : Except DSErr DataStore :=
  let cfg := if cfg.client.provider = "" ∨ cfg.client.address = "" then
               DefaultScope ""
             else cfg
  newClient boltNew cfg.client.provider cfg.client.address cfg.client.config

/-- Iterated skip `PutObjectAtomic` through the facade: each step feeds
the object returned by the previous step back in, recording every step's
error outcome together with the version stamped on the object. -/
def skipPutTrace (ds : DataStore) (o : KVObject) :
    Nat → DataStore × KVObject × List (Except DSErr Unit × Nat)
  | 0 => (ds, o, [])
  | n + 1 =>
    let t := skipPutTrace ds o n
    let r := putObjectAtomic t.1 (some t.2.1)
    let o2 := r.2.2.getD t.2.1
    (r.2.1, o2, t.2.2 ++ [(r.1, o2.index)])

/-- A plain non-skip object never yet persisted. -/
def wObjA : KVObject :=
  { key := ["k"], parentKey := ["p"], value := some [1], index := 0,
    exists_ := false, dataScope := "local", skip := false, isCtor := true }

/-- A skip-persistence object never yet persisted. -/
def wObjS : KVObject :=
  { wObjA with skip := true, value := some [9] }

/-- A fresh store with an empty backend and an empty cache. -/
def wDs0 : DataStore :=
  { scope := "local", store := { pairs := [], counter := 0 },
    cache := some emptyCache }

/-- A store whose backend already holds `Key ["k"]` at version 5 and
whose cache is empty. -/
def wDsBusy : DataStore :=
  { scope := "local",
    store := { pairs := [(Key ["k"], [7], 5)], counter := 5 },
    cache := some emptyCache }

/-- Keys of an association: the first components. -/
def keysOf (l : List (String × Bytes × Nat)) : List String :=
  l.map (fun p => p.1)

/-- A non-constructor exemplar for the C7 witness. -/
def wObjNoCtor : KVObject := { wObjA with isCtor := false }

/-- The claim C1 description of the non-skip `PutObjectAtomic` path,
written from the spec's words for comparison with the source embedding:
previous-version token nil when `Exists()` is false and
`(Key(obj.Key()...), obj.Index())` when true, `AtomicPut` with that
token, `ErrKeyModified` whenever the backend reports a version conflict,
stamping of the backend-assigned version on success, then forwarding to
the cache's `add` with skip == false. -/
def putAtomicNonSkipSpec (ds : DataStore) (o : KVObject) (v : Bytes) :
    Except DSErr Unit × DataStore × Option KVObject :=
  let token : Option KVPair :=
    if o.exists_ then
      some { key := Key o.key, value := [], lastIndex := o.index }
    else none
  match bAtomicPut ds.store (Key o.key) v token with
  | .error e =>
    if e = .keyExists ∨ e = .keyModified then (.error .keyModified, ds, some o)
    else (.error e, ds, some o)
  | .ok (pair, st') =>
    let o' := o.setIndex pair.lastIndex
    match ds.cache with
    | none => (.ok (), { ds with store := st' }, some o')
    | some c =>
      match cacheAdd c o' false with
      | .error e => (.error e, { ds with store := st' }, some o')
      | .ok (c', o2) =>
        (.ok (), { ds with store := st', cache := some c' }, some o2)

/-- A stale copy of an object the backend holds at version 5. -/
def wObjStale : KVObject := { wObjA with exists_ := true, index := 3 }

/-- A store holding one nonempty-valued child and one empty-valued child
under the parent `Key ["p"]`, for the C6 and C9 witnesses. -/
def wDsList : DataStore :=
  { scope := "local",
    store := { pairs := [(Key ["p", "a"], [1], 1), (Key ["p", "b"], [], 2)],
               counter := 2 },
    cache := some emptyCache }

/-- The state after the witness put of `wObjA` into `wDs0`. -/
def wDs1 : DataStore := (putObjectAtomic wDs0 (some wObjA)).2.1

/-- The stamped object after the witness put. -/
def wObjA1 : KVObject := ((putObjectAtomic wDs0 (some wObjA)).2.2).getD wObjA

/-- Step 1 of the C2 counterexample trace: non-skip put of `["k"]`. -/
def c2Step1 : Except DSErr Unit × DataStore × Option KVObject :=
  putObjectAtomic wDs0 (some wObjA)

/-- Step 2: a second non-skip put of the same key (backend version 2). -/
def c2Obj2 : KVObject := { (c2Step1.2.2.getD wObjA) with value := some [2] }

def c2Step2 : Except DSErr Unit × DataStore × Option KVObject :=
  putObjectAtomic c2Step1.2.1 (some c2Obj2)

/-- Step 3: a skip-flagged delete of the same key (cache entry removed,
backend untouched). -/
def c2DelObj : KVObject := { wObjA with skip := true }

def c2Step3 : Except DSErr Unit × DataStore :=
  deleteObjectAtomic c2Step2.2.1 (some c2DelObj)

/-- Step 4: a fresh skip put of the same key — the cache re-sequences it
from version 1. -/
def c2SkipObj : KVObject := { wObjA with skip := true, value := some [3] }

def c2Step4 : Except DSErr Unit × DataStore × Option KVObject :=
  putObjectAtomic c2Step3.2 (some c2SkipObj)

/-- A boltdb constructor stub returning an empty backend, and a
configuration naming an unsupported provider, for the C10 witness. -/
def wBoltNew : List String → StoreConfig → Except DSErr BackingStore :=
  fun _ _ => .ok { pairs := [], counter := 0 }

def wCfgConsul : ScopeCfg :=
  { client := { provider := "consul", address := "localhost:8500",
                config := none } }

def wCfgEmpty : ScopeCfg :=
  { client := { provider := "", address := "", config := none } }

/-- The store `New` builds from the empty configuration via the stub. -/
def wDsNew : DataStore :=
  { scope := scopeLocal, store := { pairs := [], counter := 0 },
    cache := some emptyCache }

/-! ### Helper lemmas and claim theorems -/

theorem KVObject.setIndex_skip (o : KVObject) (n : Nat) :
    (o.setIndex n).skip = o.skip := rfl

theorem KVObject.setIndex_value (o : KVObject) (n : Nat) :
    (o.setIndex n).value = o.value := rfl

theorem KVObject.setIndex_index (o : KVObject) (n : Nat) :
    (o.setIndex n).index = n := rfl

theorem assocFind_set_self {α : Type} (l : List (String × α)) (k : String)
    (v : α) : assocFind (assocSet l k v) k = some v := by
  simp [assocFind, assocSet, List.find?]

theorem Cache.lookup_addEntry_self (c : Cache) (kp k : String)
    (e : CacheEntry) : (c.addEntry kp k e).lookup kp k = some e := by
  simp [Cache.lookup, Cache.addEntry, assocFind_set_self, Option.bind]

theorem ensureParent_cache (ds : DataStore) (c' : Option Cache)
    (k : String) :
    ensureParent { ds with cache := c' } k =
      { ensureParent ds k with cache := c' } := by
  unfold ensureParent
  by_cases h : bExists ds.store k <;> simp [h]

theorem bFind_bPut_self (s : BackingStore) (k : String) (v : Bytes) :
    bFind (bPut s k v) k = some (v, s.counter + 1) := by
  simp [bFind, bPut, List.find?]

theorem bExists_ensureParent (ds : DataStore) (k : String) :
    bExists (ensureParent ds k).store k = true := by
  unfold ensureParent
  by_cases h : bExists ds.store k
  · simp [h]
  · rw [if_neg h]
    show bExists (bPut ds.store k []) k = true
    simp [bExists, bFind_bPut_self]

theorem ensureParent_pairs (ds : DataStore) (k : String) :
    (ensureParent ds k).store.pairs = ds.store.pairs ∨
      (ensureParent ds k).store.pairs =
        (k, ([] : Bytes), ds.store.counter + 1) ::
          ds.store.pairs.filter (fun q => !(q.1 == k)) := by
  unfold ensureParent
  by_cases h : bExists ds.store k
  · exact Or.inl (by simp [h])
  · exact Or.inr (by simp [h, bPut])

theorem iterate_cache_irrelevant (ds : DataStore) (c' : Option Cache)
    (key : String) (o : KVObject) :
    (iterateKVPairsFromStore { ds with cache := c' } key o).1 =
        (iterateKVPairsFromStore ds key o).1 ∧
      (iterateKVPairsFromStore { ds with cache := c' } key o).2.store =
        (iterateKVPairsFromStore ds key o).2.store := by
  unfold iterateKVPairsFromStore
  by_cases hctor : o.isCtor
  · simp only [hctor, Bool.not_true, Bool.false_eq_true, if_false,
      ensureParent_cache]
    cases hb : bList (ensureParent ds key).store key with
    | error e => simp [hb]
    | ok l => simp [hb]
  · simp [hctor]

theorem find?_of_mem_nodup (l : List (String × Bytes × Nat))
    (p : String × Bytes × Nat) (hnd : (keysOf l).Nodup) (hp : p ∈ l) :
    l.find? (fun q => q.1 == p.1) = some p := by
  induction l with
  | nil => cases hp
  | cons a t ih =>
    simp only [keysOf, List.map_cons, List.nodup_cons] at hnd
    rcases List.mem_cons.mp hp with rfl | hpt
    · simp [List.find?]
    · have hne : (a.1 == p.1) = false := by
        rw [beq_eq_false_iff_ne]
        intro h
        exact hnd.1 (h ▸ List.mem_map_of_mem (fun q => q.1) hpt)
      rw [List.find?]
      rw [hne]
      exact ih hnd.2 hpt

theorem keysOf_nodup_bPut (s : BackingStore) (k : String) (v : Bytes)
    (hnd : (keysOf s.pairs).Nodup) : (keysOf (bPut s k v).pairs).Nodup := by
  simp only [bPut, keysOf, List.map_cons, List.nodup_cons]
  constructor
  · intro hmem
    rcases List.mem_map.mp hmem with ⟨q, hq, hq1⟩
    have := List.of_mem_filter hq
    rw [hq1] at this
    simp at this
  · exact List.Nodup.sublist
      (List.Sublist.map _ (List.filter_sublist s.pairs)) hnd

theorem keysOf_nodup_ensureParent (ds : DataStore) (k : String)
    (hnd : (keysOf ds.store.pairs).Nodup) :
    (keysOf (ensureParent ds k).store.pairs).Nodup := by
  unfold ensureParent
  by_cases h : bExists ds.store k
  · simpa [h]
  · simpa [h] using keysOf_nodup_bPut ds.store k [] hnd

/-- Everything a successful enumeration emits comes from a stored pair
with a nonempty value, carrying that pair's key, value and version. -/
theorem iterate_ok_members (ds : DataStore) (key : String) (o : KVObject)
    (l : List (String × KVObject))
    (hl : (iterateKVPairsFromStore ds key o).1 = .ok l) :
    ∀ x ∈ l, ∃ p ∈ (iterateKVPairsFromStore ds key o).2.store.pairs,
      x.1 = p.1 ∧ ¬ p.2.1 = [] ∧ x.2.value = some p.2.1 ∧
        x.2.index = p.2.2 := by
  unfold iterateKVPairsFromStore at hl ⊢
  by_cases hctor : o.isCtor
  · simp only [hctor, Bool.not_true, Bool.false_eq_true, if_false] at hl ⊢
    cases hb : bList (ensureParent ds key).store key with
    | error e => rw [hb] at hl; cases hl
    | ok kvList =>
      rw [hb] at hl
      simp only [Except.ok.injEq] at hl
      subst hl
      intro x hx
      simp only [List.mem_map, List.mem_filter] at hx
      rcases hx with ⟨q, ⟨hqmem, hqval⟩, rfl⟩
      have hq : q ∈ kvList := hqmem
      unfold bList at hb
      by_cases hemp : ((((ensureParent ds key).store.pairs.filter
          (fun p => key.isPrefixOf p.1)).map
            (fun p => ({ key := p.1, value := p.2.1, lastIndex := p.2.2 } :
              KVPair)))).isEmpty
      · rw [if_pos hemp] at hb; cases hb
      · rw [if_neg hemp] at hb
        simp only [Except.ok.injEq] at hb
        subst hb
        rcases List.mem_map.mp hq with ⟨p, hpmem, rfl⟩
        refine ⟨p, List.mem_of_mem_filter hpmem, ?_⟩
        simp only [Bool.not_eq_true] at hqval
        constructor
        · rfl
        refine ⟨?_, rfl, rfl⟩
        intro hpv
        simp [hpv] at hqval
  · simp [hctor] at hl

theorem iterate_store_eq (ds : DataStore) (key : String) (o : KVObject)
    (hctor : o.isCtor = true) :
    (iterateKVPairsFromStore ds key o).2 = ensureParent ds key := by
  unfold iterateKVPairsFromStore
  simp only [hctor, Bool.not_true, Bool.false_eq_true, if_false]
  cases bList (ensureParent ds key).store key <;> rfl

theorem bFind_ensureParent_empty (ds : DataStore) (key : String)
    (hpre : bFind ds.store key = none ∨
      ∃ i, bFind ds.store key = some ([], i)) :
    ∃ i, bFind (ensureParent ds key).store key = some ([], i) := by
  unfold ensureParent
  by_cases h : bExists ds.store key
  · rw [if_pos h]
    rcases hpre with hn | ⟨i, hi⟩
    · exact absurd h (by simp [bExists, hn])
    · exact ⟨i, hi⟩
  · rw [if_neg h]
    exact ⟨ds.store.counter + 1, bFind_bPut_self ds.store key []⟩

theorem bAtomicPut_ok_find (s : BackingStore) (k : String) (v : Bytes)
    (prev : Option KVPair) (pair : KVPair) (st' : BackingStore)
    (h : bAtomicPut s k v prev = .ok (pair, st')) :
    bFind st' k = some (v, pair.lastIndex) := by
  unfold bAtomicPut at h
  cases prev with
  | none =>
    cases hf : bFind s k with
    | none =>
      rw [hf] at h
      simp only [Except.ok.injEq, Prod.mk.injEq] at h
      rcases h with ⟨hpair, hst⟩
      subst hst
      rw [← hpair]
      simp [bFind, List.find?]
    | some vi => rw [hf] at h; cases h
  | some p =>
    cases hf : bFind s k with
    | none => rw [hf] at h; cases h
    | some vi =>
      rcases vi with ⟨v0, i0⟩
      rw [hf] at h
      dsimp only at h
      by_cases hi : i0 ≠ p.lastIndex
      · rw [if_pos hi] at h; cases h
      · rw [if_neg hi] at h
        simp only [Except.ok.injEq, Prod.mk.injEq] at h
        rcases h with ⟨hpair, hst⟩
        subst hst
        rw [← hpair]
        simp [bFind, List.find?]

theorem putObjectAtomic_nonskip_ok (ds : DataStore) (o : KVObject)
    (v : Bytes) (c : Cache) (ds' : DataStore) (o' : KVObject)
    (hskip : o.skip = false) (hv : o.value = some v) (hc : ds.cache = some c)
    (hput : putObjectAtomic ds (some o) = (.ok (), ds', some o')) :
    ∃ pair st',
      bAtomicPut ds.store (Key o.key) v
        (if o.exists_ then
          some { key := Key o.key, value := [], lastIndex := o.index }
        else none) = .ok (pair, st') ∧
      o' = o.setIndex pair.lastIndex ∧
      ds' = { ds with
        store := st',
        cache := some (c.addEntry (Key o.parentKey) (Key o.key)
          { value := v, index := pair.lastIndex }) } := by
  unfold putObjectAtomic at hput
  simp only [hv, hskip, Bool.false_eq_true, if_false, hc] at hput
  cases hb : bAtomicPut ds.store (Key o.key) v
      (if o.exists_ = true then
        some { key := Key o.key, value := [], lastIndex := o.index }
      else none) with
  | error e =>
    rw [hb] at hput
    simp at hput
  | ok p =>
    cases p with
    | mk pair st' =>
      rw [hb] at hput
      simp only [KVObject.setIndex_skip, hskip, Bool.false_eq_true,
        if_false, cacheAdd, KVObject.setIndex_value, hv, Option.getD_some,
        KVObject.setIndex_index, Prod.mk.injEq, Except.ok.injEq,
        Option.some.injEq] at hput
      rcases hput with ⟨_, hds, ho⟩
      exact ⟨pair, st', rfl, ho.symm, hds.symm⟩

theorem DataStore.eta (ds : DataStore) (c : Cache) (h : ds.cache = some c) :
    ds = { ds with cache := some c } := by
  cases ds with
  | mk sc st ca =>
    have h2 : ca = some c := h
    subst h2
    rfl

/-- The facade's skip-put behaviour: through the cache's arbitration,
a claimed previous version that differs from the currently cached one
(0 when absent) fails with `ErrKeyModified`; a matching one gets
`currentVersion + 1` stamped and recorded. -/
theorem putObjectAtomic_skip_char (ds : DataStore) (o : KVObject)
    (v : Bytes) (c : Cache)
    (hskip : o.skip = true) (hv : o.value = some v)
    (hc : ds.cache = some c) :
    (o.index ≠ ((c.lookup (Key o.parentKey) (Key o.key)).map
        (fun e => e.index)).getD 0 →
      putObjectAtomic ds (some o) = (.error .keyModified, ds, some o)) ∧
    (o.index = ((c.lookup (Key o.parentKey) (Key o.key)).map
        (fun e => e.index)).getD 0 →
      putObjectAtomic ds (some o) =
        (.ok (),
          { ds with cache := some (c.addEntry (Key o.parentKey) (Key o.key)
            { value := v, index := o.index + 1 }) },
          some (o.setIndex (o.index + 1)))) := by
  constructor
  · intro hne
    have hadd : cacheAdd c o true = .error .keyModified := by
      simp [cacheAdd, hne]
    simp [putObjectAtomic, hv, hskip, hc, hadd]
  · intro heq
    have hadd : cacheAdd c o true =
        .ok (c.addEntry (Key o.parentKey) (Key o.key)
          { value := v, index := o.index + 1 }, o.setIndex (o.index + 1)) := by
      simp [cacheAdd, hv, ← heq]
    simp [putObjectAtomic, hv, hskip, hc, hadd]

theorem skipPutTrace_inv (ds : DataStore) (o : KVObject) (v : Bytes)
    (c : Cache)
    (hskip : o.skip = true) (hv : o.value = some v) (hc : ds.cache = some c)
    (hfresh : c.lookup (Key o.parentKey) (Key o.key) = none)
    (hidx : o.index = 0) :
    ∀ n : Nat, ∃ cn : Cache, ∃ ob : KVObject,
      skipPutTrace ds o n =
        ({ ds with cache := some cn }, ob,
          (List.range n).map
            (fun i => ((Except.ok () : Except DSErr Unit), i + 1))) ∧
      ob.skip = true ∧ ob.value = some v ∧ ob.index = n ∧
      ob.parentKey = o.parentKey ∧ ob.key = o.key ∧
      cn.lookup (Key o.parentKey) (Key o.key) =
        (if n = 0 then none else some { value := v, index := n }) := by
  intro n
  induction n with
  | zero =>
    refine ⟨c, o, ?_, hskip, hv, hidx, rfl, rfl, by simpa using hfresh⟩
    show (ds, o, ([] : List (Except DSErr Unit × Nat))) = _
    rw [← DataStore.eta ds c hc]
    simp
  | succ n ih =>
    rcases ih with ⟨cn, ob, htr, hsk, hval, hind, hpk, hk, hlook⟩
    have hcv : ((cn.lookup (Key ob.parentKey) (Key ob.key)).map
        (fun e => e.index)).getD 0 = n := by
      rw [hpk, hk, hlook]
      cases n with
      | zero => rfl
      | succ m => rfl
    have hstep := (putObjectAtomic_skip_char { ds with cache := some cn }
      ob v cn hsk hval rfl).2 (by rw [hcv]; exact hind)
    refine ⟨cn.addEntry (Key ob.parentKey) (Key ob.key)
        { value := v, index := ob.index + 1 }, ob.setIndex (ob.index + 1),
      ?_, hsk, hval,
      by show ob.index + 1 = n + 1; rw [hind],
      by show ob.parentKey = o.parentKey; exact hpk,
      by show ob.key = o.key; exact hk, ?_⟩
    · show (let t := skipPutTrace ds o n;
        let r := putObjectAtomic t.1 (some t.2.1);
        let o2 := r.2.2.getD t.2.1;
        (r.2.1, o2, t.2.2 ++ [(r.1, o2.index)])) = _
      rw [htr]
      simp only [hstep]
      simp [List.range_succ, hind, KVObject.setIndex_index]
    · rw [hpk, hk] at hstep ⊢
      rw [if_neg (Nat.succ_ne_zero n)]
      rw [hind]
      exact Cache.lookup_addEntry_self cn (Key o.parentKey) (Key o.key) _

theorem newClient_shape
    (boltNew : List String → StoreConfig → Except DSErr BackingStore)
    (kv addr : String) (config : Option StoreConfig) :
    (kv ≠ BOLTDB →
      newClient boltNew kv addr config =
        .error (.other "unsupported KV store")) ∧
    (∀ ds, newClient boltNew kv addr config = .ok ds →
      ds.scope = scopeLocal ∧ ds.cache = some emptyCache) := by
  constructor
  · intro hne
    unfold newClient
    rw [if_pos hne]
  · intro ds hok
    unfold newClient at hok
    by_cases hne : kv ≠ BOLTDB
    · rw [if_pos hne] at hok; cases hok
    · rw [if_neg hne] at hok
      dsimp only at hok
      cases hb : boltNew (addr.splitOn ",")
          (config.getD { bucket := "", connectionTimeoutMinutes := 0 }) with
      | error e => rw [hb] at hok; cases hok
      | ok s =>
        rw [hb] at hok
        simp only [Except.ok.injEq] at hok
        rw [← hok]
        exact ⟨rfl, rfl⟩

/-- C3: for every KVObject with `Skip() == true`, `PutObjectAtomic` and
`DeleteObjectAtomic` perform no BackingStore operation at all — the
backend state is bypassed entirely (both goto straight to the cache
step), so the write or delete is recorded only in the Cache and skip
objects never appear in the backend's key space. -/
theorem skip_objects_never_touch_backend (ds : DataStore) (o : KVObject)
    (hskip : o.skip = true) :
    (putObjectAtomic ds (some o)).2.1.store = ds.store ∧
      (deleteObjectAtomic ds (some o)).2.store = ds.store := by
  constructor
  · cases hv : o.value with
    | none => simp [putObjectAtomic, hv]
    | some v =>
      cases hc : ds.cache with
      | none => simp [putObjectAtomic, hv, hskip, hc]
      | some c =>
        cases hadd : cacheAdd c o true with
        | error e => simp [putObjectAtomic, hv, hskip, hc, hadd]
        | ok p =>
          cases p with
          | mk c' o' => simp [putObjectAtomic, hv, hskip, hc, hadd]
  · cases hc : ds.cache with
    | none => simp [deleteObjectAtomic, hskip, hc]
    | some c => simp [deleteObjectAtomic, hskip, hc]

/-- Witness for C3 at a concrete skip object and store. -/
theorem skip_objects_never_touch_backend_witness :
    wObjS.skip = true ∧
      ((putObjectAtomic wDs0 (some wObjS)).2.1.store = wDs0.store ∧
        (deleteObjectAtomic wDs0 (some wObjS)).2.store = wDs0.store) :=
  ⟨rfl, skip_objects_never_touch_backend wDs0 wObjS rfl⟩

/-- C7: enumeration (`List`, and likewise `Map`) on an exemplar lacking
the `KVConstructor` capability fails with a hard error rather than
returning results, whether or not a cache is configured (the cache path
is modelled from the spec, which requires the exemplar's constructor for
materialization). -/
theorem list_map_require_constructor (ds : DataStore) (key : String)
    (o : KVObject) (hctor : o.isCtor = false) :
    (∃ msg, (listObjects ds key o).1 = .error (.other msg)) ∧
      (∃ msg, (mapObjects ds key o).1 = .error (.other msg)) := by
  constructor
  · cases hc : ds.cache with
    | none =>
      exact ⟨"error listing objects, object does not implement KVConstructor interface",
        by simp [listObjects, iterateKVPairsFromStore, hctor, hc]⟩
    | some c =>
      exact ⟨"error listing objects from cache: object does not implement KVConstructor interface",
        by simp [listObjects, cacheList, hctor, hc]⟩
  · exact ⟨"error listing objects, object does not implement KVConstructor interface",
      by simp [mapObjects, iterateKVPairsFromStore, hctor]⟩

/-- Witness for C7: concrete failure with a cache configured. -/
theorem list_map_require_constructor_witness :
    wObjNoCtor.isCtor = false ∧
      ((∃ msg, (listObjects wDs0 (Key ["p"]) wObjNoCtor).1 =
          .error (.other msg)) ∧
        (∃ msg, (mapObjects wDs0 (Key ["p"]) wObjNoCtor).1 =
          .error (.other msg))) :=
  ⟨rfl, list_map_require_constructor wDs0 (Key ["p"]) wObjNoCtor rfl⟩

/-- C8: deleting a key absent from the Cache is a no-op, not an error:
the cache `del` returns the cache unchanged, and `DeleteObjectAtomic` on
a skip object whose key was never cached succeeds leaving the store
exactly as it was. -/
theorem delete_absent_key_noop (ds : DataStore) (o : KVObject) (c : Cache)
    (hskip : o.skip = true) (hc : ds.cache = some c)
    (habs : c.lookup (Key o.parentKey) (Key o.key) = none) :
    cacheDel c o o.skip = c ∧ deleteObjectAtomic ds (some o) = (.ok (), ds) := by
  have hdel : ∀ b, cacheDel c o b = c := by
    intro b
    unfold cacheDel
    cases hm : assocFind c.kmm (Key o.parentKey) with
    | none => rfl
    | some m =>
      have hnone : assocFind m (Key o.key) = none := by
        have h2 := habs
        unfold Cache.lookup at h2
        rw [hm] at h2
        simpa using h2
      simp [hnone]
  refine ⟨hdel o.skip, ?_⟩
  cases ds with
  | mk sc st ca =>
    have hca : ca = some c := hc
    subst hca
    simp [deleteObjectAtomic, hskip, hdel]

/-- C1: for every KVObject with `Skip() == false` (and a non-nil value),
`PutObjectAtomic` behaves exactly as the claim describes: it builds the
previous-version token from `Exists()`/`Index()`, calls the backend's
`AtomicPut` with it, returns `ErrKeyModified` on a backend version
conflict, and on success stamps the backend-assigned version on the
object before forwarding it to the cache's `add` with skip == false. -/
theorem putObjectAtomic_nonskip_spec (ds : DataStore) (o : KVObject)
    (v : Bytes) (hskip : o.skip = false) (hv : o.value = some v) :
    putObjectAtomic ds (some o) = putAtomicNonSkipSpec ds o v := by
  unfold putObjectAtomic putAtomicNonSkipSpec
  simp only [hv, hskip, Bool.false_eq_true, if_false]
  cases hb : bAtomicPut ds.store (Key o.key) v
      (if o.exists_ = true then
        some { key := Key o.key, value := [], lastIndex := o.index }
      else none) with
  | error e => cases e <;> simp
  | ok p =>
    cases p with
    | mk pair st' =>
      simp only [KVObject.setIndex_skip, hskip]

/-- Witness for C1 at a concrete fresh object and store. -/
theorem putObjectAtomic_nonskip_spec_witness :
    wObjA.skip = false ∧ wObjA.value = some [1] ∧
      putObjectAtomic wDs0 (some wObjA) = putAtomicNonSkipSpec wDs0 wObjA [1] :=
  ⟨rfl, rfl, putObjectAtomic_nonskip_spec wDs0 wObjA [1] rfl rfl⟩

/-- C4: whenever the backend call inside a non-skip `PutObjectAtomic` or
`DeleteObjectAtomic` returns an error, the operation returns that error
(the backend's `ErrKeyExists` conflict mapped to `ErrKeyModified`), the
store state — cache included — is left entirely unchanged, and the
object's stored version is untouched: the cache is mutated only after a
successful backend write or delete. -/
theorem backend_error_leaves_state_untouched (ds : DataStore)
    (o : KVObject) (v : Bytes) (e1 e2 : DSErr)
    (hskip : o.skip = false) (hv : o.value = some v)
    (hp : bAtomicPut ds.store (Key o.key) v
      (if o.exists_ then
        some { key := Key o.key, value := [], lastIndex := o.index }
      else none) = .error e1)
    (hd : bAtomicDelete ds.store (Key o.key)
      { key := Key o.key, value := [], lastIndex := o.index } = .error e2) :
    putObjectAtomic ds (some o) =
        (.error (if e1 = .keyExists then .keyModified else e1), ds, some o) ∧
      deleteObjectAtomic ds (some o) =
        (.error (if e2 = .keyExists then .keyModified else e2), ds) := by
  constructor
  · simp [putObjectAtomic, hv, hskip, hp]
  · simp [deleteObjectAtomic, hskip, hd]

/-- Witness for C4: a stale put and a stale delete against `wDsBusy`
both report the backend's conflict and leave everything unchanged. -/
theorem backend_error_leaves_state_untouched_witness :
    wObjStale.skip = false ∧ wObjStale.value = some [1] ∧
      (putObjectAtomic wDsBusy (some wObjStale) =
          (.error (if DSErr.keyModified = DSErr.keyExists then
            DSErr.keyModified else DSErr.keyModified), wDsBusy, some wObjStale) ∧
        deleteObjectAtomic wDsBusy (some wObjStale) =
          (.error (if DSErr.keyModified = DSErr.keyExists then
            DSErr.keyModified else DSErr.keyModified), wDsBusy)) :=
  ⟨rfl, rfl,
    backend_error_leaves_state_untouched wDsBusy wObjStale [1]
      .keyModified .keyModified rfl rfl rfl rfl⟩

/-- C6: `Map` never consults the Cache — its outcome and its effect on
the backend are identical under every cache configuration; with a
KVConstructor exemplar it ensures the parent key exists in the backend
and enumerates it; and every key of a successful result is a stored key
with leading and trailing "/" trimmed.  (This is the intentional
asymmetry with `List`/`GetObject`, which take the cache path when a
cache is configured.) -/
theorem map_never_consults_cache (ds : DataStore) (c' : Option Cache)
    (key : String) (o : KVObject) :
    (mapObjects { ds with cache := c' } key o).1 =
        (mapObjects ds key o).1 ∧
      (mapObjects { ds with cache := c' } key o).2.store =
        (mapObjects ds key o).2.store ∧
      (o.isCtor = true →
        bExists (mapObjects ds key o).2.store key = true) ∧
      (∀ l, (mapObjects ds key o).1 = .ok l →
        ∀ x ∈ l, ∃ p ∈ (mapObjects ds key o).2.store.pairs,
          x.1 = trimSlashes p.1 ∧ ¬ p.2.1 = []) := by
  obtain ⟨hin1, hin2⟩ := iterate_cache_irrelevant ds c' key o
  rcases h1 : iterateKVPairsFromStore ds key o with ⟨r, ds1⟩
  rcases h2 : iterateKVPairsFromStore { ds with cache := c' } key o with
    ⟨r2, ds2⟩
  rw [h1, h2] at hin1 hin2
  simp only at hin1 hin2
  subst hin1
  refine ⟨?_, ?_, ?_, ?_⟩
  · unfold mapObjects
    rw [h1, h2]
    cases r2 <;> rfl
  · unfold mapObjects
    rw [h1, h2]
    cases r2 <;> simpa using hin2
  · intro hctor
    have hst : (mapObjects ds key o).2 = ds1 := by
      unfold mapObjects
      rw [h1]
      cases r2 <;> rfl
    have hds1 : ds1 = ensureParent ds key := by
      have := iterate_store_eq ds key o hctor
      rw [h1] at this
      exact this
    rw [hst, hds1]
    exact bExists_ensureParent ds key
  · intro l hl x hx
    have hst : (mapObjects ds key o).2 = ds1 := by
      unfold mapObjects
      rw [h1]
      cases r2 <;> rfl
    cases r2 with
    | error e =>
      exfalso
      unfold mapObjects at hl
      rw [h1] at hl
      cases hl
    | ok l0 =>
      unfold mapObjects at hl
      rw [h1] at hl
      simp only [Except.ok.injEq] at hl
      subst hl
      rcases List.mem_map.mp hx with ⟨q, hq, rfl⟩
      have hmem := iterate_ok_members ds key o l0 (by rw [h1]) q hq
      rcases hmem with ⟨p, hp, hq1, hpv, _, _⟩
      refine ⟨p, ?_, ?_, hpv⟩
      · rw [hst]
        rw [h1] at hp
        exact hp
      · simp [hq1]

/-- Witness for C6: on a concrete store, removing the cache does not
change `Map`'s outcome, and the parent key is ensured. -/
theorem map_never_consults_cache_witness :
    (mapObjects { wDsList with cache := none } (Key ["p"]) wObjA).1 =
        (mapObjects wDsList (Key ["p"]) wObjA).1 ∧
      wObjA.isCtor = true ∧
      bExists (mapObjects wDsList (Key ["p"]) wObjA).2.store (Key ["p"]) =
        true :=
  ⟨(map_never_consults_cache wDsList none (Key ["p"]) wObjA).1, rfl,
    (map_never_consults_cache wDsList none (Key ["p"]) wObjA).2.2.1 rfl⟩

/-- C9: the backend enumeration path shared by `List` (without a cache)
and `Map` silently omits every stored entry whose value is empty; in
particular, after the scan the backend holds the empty-valued
placeholder `ensureParent` wrote for the prefix key itself, and that key
never appears among the results: every emitted entry carries the key and
value of a nonempty-valued stored pair, and none carries the prefix
key. -/
theorem iterate_omits_empty_values (ds : DataStore) (key : String)
    (o : KVObject) (hctor : o.isCtor = true)
    (hnd : (keysOf ds.store.pairs).Nodup)
    (hpre : bFind ds.store key = none ∨
      ∃ i, bFind ds.store key = some ([], i)) :
    (∃ i, bFind (iterateKVPairsFromStore ds key o).2.store key =
        some ([], i)) ∧
      ∀ l, (iterateKVPairsFromStore ds key o).1 = .ok l →
        (∀ x ∈ l, ∃ p ∈ (iterateKVPairsFromStore ds key o).2.store.pairs,
            x.1 = p.1 ∧ ¬ p.2.1 = [] ∧ x.2.value = some p.2.1) ∧
          ∀ x ∈ l, ¬ x.1 = key := by
  have hst : (iterateKVPairsFromStore ds key o).2 = ensureParent ds key :=
    iterate_store_eq ds key o hctor
  have hplace : ∃ i, bFind (ensureParent ds key).store key = some ([], i) :=
    bFind_ensureParent_empty ds key hpre
  have hnd1 : (keysOf (ensureParent ds key).store.pairs).Nodup :=
    keysOf_nodup_ensureParent ds key hnd
  refine ⟨by rw [hst]; exact hplace, ?_⟩
  intro l hl
  have hmem := iterate_ok_members ds key o l hl
  refine ⟨fun x hx => ?_, ?_⟩
  · rcases hmem x hx with ⟨p, hp, h1, h2, h3, _⟩
    exact ⟨p, hp, h1, h2, h3⟩
  intro x hx hkey
  rcases hmem x hx with ⟨p, hp, hx1, hpv, _⟩
  rcases hplace with ⟨i, hi⟩
  have hfind : (ensureParent ds key).store.pairs.find?
      (fun q => q.1 == p.1) = some p := by
    apply find?_of_mem_nodup _ _ hnd1
    rw [hst] at hp
    exact hp
  have : bFind (ensureParent ds key).store p.1 = some p.2 := by
    simp [bFind, hfind]
  rw [← hx1, hkey] at this
  rw [hi] at this
  simp only [Option.some.injEq] at this
  exact hpv (by rw [← this])

/-- Witness for C9 at the concrete `wDsList` store: the placeholder is
written for the absent prefix key. -/
theorem iterate_omits_empty_values_witness :
    wObjA.isCtor = true ∧ (keysOf wDsList.store.pairs).Nodup ∧
      bFind wDsList.store (Key ["p"]) = none ∧
      (∃ i, bFind (iterateKVPairsFromStore wDsList (Key ["p"]) wObjA).2.store
        (Key ["p"]) = some ([], i)) :=
  ⟨rfl, by decide, rfl,
    (iterate_omits_empty_values wDsList (Key ["p"]) wObjA rfl (by decide)
      (Or.inl rfl)).1⟩

/-- C2 (amended): after any successful non-skip `PutObjectAtomic`
through a cache-backed store, an immediate `GetObject` on the same key
succeeds and hydrates the supplied object with exactly the value and
version just written, and at that moment the cache's version for the
key equals the version the backend just accepted (so cache ≥ backend
right after the write).  The unconditional "cache ≥ backend whenever
both hold the key" part of the claim is refuted separately by a concrete
facade trace mixing skip and non-skip operations on one key. -/
theorem get_after_put_returns_written (ds : DataStore) (o : KVObject)
    (v : Bytes) (c : Cache) (ds' : DataStore) (o' : KVObject)
    (hskip : o.skip = false) (hv : o.value = some v) (hc : ds.cache = some c)
    (hput : putObjectAtomic ds (some o) = (.ok (), ds', some o')) :
    getObject ds' (Key o.key) o' = .ok ((o'.setValue v).setIndex o'.index) ∧
      bFind ds'.store (Key o.key) = some (v, o'.index) ∧
      ∃ c', ds'.cache = some c' ∧
        c'.lookup (Key o.parentKey) (Key o.key) =
          some { value := v, index := o'.index } := by
  rcases putObjectAtomic_nonskip_ok ds o v c ds' o' hskip hv hc hput with
    ⟨pair, st', hb, ho', hds'⟩
  have hidx : o'.index = pair.lastIndex := by rw [ho']; rfl
  have hpk : o'.parentKey = o.parentKey := by rw [ho']; rfl
  have hk : o'.key = o.key := by rw [ho']; rfl
  subst hds'
  refine ⟨?_, ?_, ?_⟩
  · simp only [getObject, cacheGet, hpk, hk, Cache.lookup_addEntry_self,
      hidx]
  · rw [hidx]
    exact bAtomicPut_ok_find ds.store (Key o.key) v _ pair st' hb
  · exact ⟨_, rfl, by rw [hidx]; exact
      Cache.lookup_addEntry_self c (Key o.parentKey) (Key o.key) _⟩

/-- Witness for C2's amended theorem at a concrete put. -/
theorem get_after_put_returns_written_witness :
    wObjA.skip = false ∧ wObjA.value = some [1] ∧
      wDs0.cache = some emptyCache ∧
      (getObject wDs1 (Key wObjA.key) wObjA1 =
          .ok ((wObjA1.setValue [1]).setIndex wObjA1.index) ∧
        bFind wDs1.store (Key wObjA.key) = some ([1], wObjA1.index) ∧
        ∃ c', wDs1.cache = some c' ∧
          c'.lookup (Key wObjA.parentKey) (Key wObjA.key) =
            some { value := [1], index := wObjA1.index }) :=
  ⟨rfl, rfl, rfl,
    get_after_put_returns_written wDs0 wObjA [1] emptyCache wDs1 wObjA1
      rfl rfl rfl rfl⟩

/-- C2 counterexample: after a facade trace in which every step succeeds
(non-skip put, non-skip put, skip delete, skip put — all on the key
`["k"]`), both the cache and the backend hold the key, yet the cache's
version (1) is strictly below the last backend-accepted version (2):
the claim's unconditional "cache version ≥ last backend-accepted
version whenever both exist" is false on this code. -/
theorem cache_version_can_drop_below_backend :
    c2Step1.1 = .ok () ∧ c2Step2.1 = .ok () ∧ c2Step3.1 = .ok () ∧
      c2Step4.1 = .ok () ∧
      bFind c2Step4.2.1.store (Key ["k"]) = some ([2], 2) ∧
      (c2Step4.2.1.cache.map (fun c => c.lookup (Key ["p"]) (Key ["k"]))) =
        some (some { value := [3], index := 1 }) ∧
      ¬ (1 : Nat) ≥ 2 :=
  ⟨rfl, rfl, rfl, rfl, rfl, rfl, by decide⟩

/-- C5: for a skip-persistence object put through the facade, the cache
is the sole arbiter: a claimed previous version (`Index()`) differing
from the currently cached version for the key fails with
`ErrKeyModified`; a matching claim gets `currentVersion + 1` assigned,
stamped back onto the object and recorded; and starting from an uncached
key and a zero index, a sequence of N successful skip puts yields the
strictly increasing versions 1 through N. -/
theorem skip_put_sequencing (ds : DataStore) (o : KVObject) (v : Bytes)
    (c : Cache) (N : Nat)
    (hskip : o.skip = true) (hv : o.value = some v)
    (hc : ds.cache = some c) :
    (o.index ≠ ((c.lookup (Key o.parentKey) (Key o.key)).map
        (fun e => e.index)).getD 0 →
      putObjectAtomic ds (some o) = (.error .keyModified, ds, some o)) ∧
    (o.index = ((c.lookup (Key o.parentKey) (Key o.key)).map
        (fun e => e.index)).getD 0 →
      putObjectAtomic ds (some o) =
        (.ok (),
          { ds with cache := some (c.addEntry (Key o.parentKey) (Key o.key)
            { value := v, index := o.index + 1 }) },
          some (o.setIndex (o.index + 1)))) ∧
    (c.lookup (Key o.parentKey) (Key o.key) = none → o.index = 0 →
      (skipPutTrace ds o N).2.2 =
        (List.range N).map
          (fun i => ((Except.ok () : Except DSErr Unit), i + 1))) := by
  obtain ⟨hmis, hok⟩ := putObjectAtomic_skip_char ds o v c hskip hv hc
  refine ⟨hmis, hok, ?_⟩
  intro hfresh hidx
  rcases skipPutTrace_inv ds o v c hskip hv hc hfresh hidx N with
    ⟨cN, oN, htr, _⟩
  rw [htr]

/-- Witness for C5 at three successive skip puts of a fresh key. -/
theorem skip_put_sequencing_witness :
    wObjS.skip = true ∧ wObjS.value = some [9] ∧
      wDs0.cache = some emptyCache ∧
      (emptyCache.lookup (Key wObjS.parentKey) (Key wObjS.key) = none →
        wObjS.index = 0 →
        (skipPutTrace wDs0 wObjS 3).2.2 =
          (List.range 3).map
            (fun i => ((Except.ok () : Except DSErr Unit), i + 1))) :=
  ⟨rfl, rfl, rfl,
    (skip_put_sequencing wDs0 wObjS [9] emptyCache 3 rfl rfl rfl).2.2⟩

/-- C10: `New` (after substituting the default local configuration when
provider or address is empty) fails with an "unsupported KV store" error
for every provider other than the embedded boltdb backend, and every
store it successfully constructs has local scope and a cache installed —
so `Scope()` returns local and `GetObject`/`List` always take the cache
path.  (The boltdb constructor is not in the source tree and is passed
as a parameter over its interface.) -/
theorem new_local_store_shape
    (boltNew : List String → StoreConfig → Except DSErr BackingStore)
    (cfg : ScopeCfg) :
    ((if cfg.client.provider = "" ∨ cfg.client.address = "" then
        DefaultScope "" else cfg).client.provider ≠ BOLTDB →
      New boltNew cfg = .error (.other "unsupported KV store")) ∧
    (∀ ds, New boltNew cfg = .ok ds →
      Scope ds = scopeLocal ∧ ds.cache = some emptyCache ∧
      (∀ k ob, getObject ds k ob = cacheGet emptyCache ob) ∧
      (∀ k ob, listObjects ds k ob = (cacheList emptyCache ob, ds))) := by
  have hNew : New boltNew cfg =
      newClient boltNew
        (if cfg.client.provider = "" ∨ cfg.client.address = "" then
          DefaultScope "" else cfg).client.provider
        (if cfg.client.provider = "" ∨ cfg.client.address = "" then
          DefaultScope "" else cfg).client.address
        (if cfg.client.provider = "" ∨ cfg.client.address = "" then
          DefaultScope "" else cfg).client.config := rfl
  obtain ⟨herr, hshape⟩ := newClient_shape boltNew
    (if cfg.client.provider = "" ∨ cfg.client.address = "" then
      DefaultScope "" else cfg).client.provider
    (if cfg.client.provider = "" ∨ cfg.client.address = "" then
      DefaultScope "" else cfg).client.address
    (if cfg.client.provider = "" ∨ cfg.client.address = "" then
      DefaultScope "" else cfg).client.config
  constructor
  · intro hne
    rw [hNew]
    exact herr hne
  · intro ds hok
    rw [hNew] at hok
    obtain ⟨hsc, hca⟩ := hshape ds hok
    refine ⟨hsc, hca, ?_, ?_⟩
    · intro k ob
      simp [getObject, hca]
    · intro k ob
      simp [listObjects, hca]

/-- Witness for C10: the unsupported provider is rejected with the exact
error, and a successful construction has local scope and a cache. -/
theorem new_local_store_shape_witness :
    New wBoltNew wCfgConsul = .error (.other "unsupported KV store") ∧
      (Scope wDsNew = scopeLocal ∧ wDsNew.cache = some emptyCache ∧
        (∀ k ob, getObject wDsNew k ob = cacheGet emptyCache ob) ∧
        (∀ k ob, listObjects wDsNew k ob = (cacheList emptyCache ob, wDsNew))) :=
  ⟨(new_local_store_shape wBoltNew wCfgConsul).1 (by decide),
    (new_local_store_shape wBoltNew wCfgEmpty).2 wDsNew rfl⟩

/-- Witness for C8 at a concrete skip object and an empty cache. -/
theorem delete_absent_key_noop_witness :
    wObjS.skip = true ∧ wDs0.cache = some emptyCache ∧
      emptyCache.lookup (Key wObjS.parentKey) (Key wObjS.key) = none ∧
      (cacheDel emptyCache wObjS wObjS.skip = emptyCache ∧
        deleteObjectAtomic wDs0 (some wObjS) = (.ok (), wDs0)) :=
  ⟨rfl, rfl, rfl, delete_absent_key_noop wDs0 wObjS emptyCache rfl rfl rfl⟩

end Datastore
